import Mathlib

/-!
Verification of the referential-integrity core of the social-network CRUD
backend (src/index.js): Users and Thoughts over a document store, with
friend add/remove, cascade on user delete, and append-on-thought-create.

The embedding models the Mongo/Mongoose store shallowly: documents are
structures, collections are lists, identifiers are naturals drawn from a
store-side counter (`nextId`), and each route handler is a pure function
from a store and its inputs to a response together with the new store.
`findByIdAndUpdate`/`findOneAndUpdate` update the first matching document
and perform no write when nothing matches; `$addToSet` appends only when
absent; `$pull` filters; `$push` appends.
-/

namespace NoSQL

/-- Embedded reaction sub-document (thoughtSchema.reactions). -/
structure Reaction where
  reactionId : Nat
  reactionBody : String
  username : String
  createdAt : Nat
deriving Repr, DecidableEq

/-- User document (userSchema): username, email, thought-id refs, friend-id refs. -/
structure User where
  id : Nat
  username : String
  email : String
  thoughts : List Nat
  friends : List Nat
deriving Repr, DecidableEq

/-- Thought document (thoughtSchema). -/
structure Thought where
  id : Nat
  thoughtText : String
  username : String
  createdAt : Nat
  reactions : List Reaction
deriving Repr, DecidableEq

/-- The document store: the two collections plus the id generator. -/
structure Store where
  users : List User
  thoughts : List Thought
  nextId : Nat
deriving Repr, DecidableEq

/-- HTTP-level outcome of a route handler: 200 with a payload, 404 with a
message, or 400 (validation failure). -/
inductive Response (α : Type) where
  | ok : α → Response α
  | notFound : String → Response α
  | badRequest : Response α
deriving Repr, DecidableEq

/-- Character allowed in the local part of the email pattern
`[a-zA-Z0-9._%+-]`. -/
def isLocalChar (c : Char) : Bool :=
  c.isAlphanum || c = '.' || c = '_' || c = '%' || c = '+' || c = '-'

/-- Character allowed in the domain body of the email pattern `[a-zA-Z0-9.-]`. -/
def isDomainChar (c : Char) : Bool :=
  c.isAlphanum || c = '.' || c = '-'

/-- Domain part of the email pattern: `[a-zA-Z0-9.-]+\.[a-zA-Z]\x7b2,\x7d`.
Since the final label contains no dot, the pattern's literal dot must be the
last dot of the string. -/
def domainValid (d : List Char) : Bool :=
  let tldRev := d.reverse.takeWhile (fun c => c ≠ '.')
  let restRev := d.reverse.dropWhile (fun c => c ≠ '.')
  decide (tldRev.length ≥ 2) && tldRev.all Char.isAlpha &&
  match restRev with
  | '.' :: bodyRev => !bodyRev.isEmpty && bodyRev.all isDomainChar
  | _ => false

/-- The userSchema email match pattern
`^[a-zA-Z0-9._%+-]+@[a-zA-Z0-9.-]+\.[a-zA-Z]\x7b2,\x7d$`: neither character
class contains `@`, so the string splits at a unique `@`. -/
def emailValid (s : String) : Bool :=
  match s.data.splitOn '@' with
  | [localPart, domain] =>
      !localPart.isEmpty && localPart.all isLocalChar && domainValid domain
  | _ => false

/-- `findById` over a collection of users. -/
def findUser (s : Store) (id : Nat) : Option User :=
  s.users.find? (fun u => u.id = id)

/-- `findById` over the thought collection. -/
def findThought (s : Store) (id : Nat) : Option Thought :=
  s.thoughts.find? (fun t => t.id = id)

/-- Mongo `$addToSet`: append the element only when it is absent. -/
def addToSet (l : List Nat) (x : Nat) : List Nat :=
  if x ∈ l then l else l ++ [x]

/-- Apply `f` to the first document matching `p`; no-op when none matches
(the write side of `findOneAndUpdate`/`findByIdAndUpdate`). -/
def updateFirst {α : Type} (p : α → Bool) (f : α → α) : List α → List α
  | [] => []
  | a :: rest => if p a then f a :: rest else a :: updateFirst p f rest

/-- `User.findByIdAndUpdate(id, f, \x7bnew: true\x7d)`: returns the updated
document (or `none` when the id does not resolve) and the new collection
state. -/
def updateUserById (s : Store) (id : Nat) (f : User → User) :
    Option User × Store :=
  match s.users.find? (fun u => u.id = id) with
  | none => (none, s)
  | some u =>
      (some (f u), { s with users := updateFirst (fun v => v.id = id) f s.users })

/-- `User.findOneAndUpdate(\x7busername\x7d, f)`: update the first user whose
username matches; no-op (not an error) when none matches. -/
def updateUserByUsername (s : Store) (uname : String) (f : User → User) : Store :=
  { s with users := updateFirst (fun v => v.username = uname) f s.users }

/-- Payload of POST /api/users: `User.create(req.body)` persists every
schema path supplied in the body, `thoughts` and `friends` arrays
included (absent arrays default to empty). -/
structure UserPayload where
  username : String
  email : String
  thoughts : List Nat
  friends : List Nat
deriving Repr, DecidableEq

/-- Payload of PUT /api/users/:userId: req.body is passed straight to
`findByIdAndUpdate`, so any schema path may be set, `thoughts` and
`friends` arrays included. -/
structure UserUpdate where
  username : Option String
  email : Option String
  thoughts : Option (List Nat)
  friends : Option (List Nat)
deriving Repr, DecidableEq

/-- Payload of POST /api/thoughts. -/
structure ThoughtPayload where
  thoughtText : String
  username : String
deriving Repr, DecidableEq

/-- Payload of PUT /api/thoughts/:thoughtId (partial update). -/
structure ThoughtUpdate where
  thoughtText : Option String
  username : Option String
deriving Repr, DecidableEq

/-- Whitespace trim applied by the username setter (`trim: true`),
written structurally so it evaluates by reduction. -/
def trimString (s : String) : String :=
  ⟨((s.data.dropWhile Char.isWhitespace).reverse.dropWhile Char.isWhitespace).reverse⟩

/-- GET /api/users/:userId (the populate join resolves references for
display and does not affect lookup or error behaviour). -/
def getUser (s : Store) (id : Nat) : Response User :=
  match findUser s id with
  | none => .notFound "User not found"
  | some u => .ok u

/-- POST /api/users: `User.create(req.body)`; username is trimmed and
required, email must match the schema pattern, and both carry a unique
index, so a duplicate insert is rejected with a 400. -/
def createUser (s : Store) (p : UserPayload) : Response User × Store :=
  let uname := trimString p.username
  if uname = "" then (.badRequest, s)
  else if !emailValid p.email then (.badRequest, s)
  else if s.users.any (fun u => u.username = uname) then (.badRequest, s)
  else if s.users.any (fun u => u.email = p.email) then (.badRequest, s)
  else
    let u : User := ⟨s.nextId, uname, p.email, p.thoughts, p.friends⟩
    (.ok u, { s with users := s.users ++ [u], nextId := s.nextId + 1 })

/-- Client-side update validators (runValidators: true): field-level
constraints on the paths the update sets, checked before the query is
issued — so they fire even when the id matches nothing. -/
def userUpdateFieldsValid (p : UserUpdate) : Bool :=
  (match p.username with
   | none => true
   | some un => trimString un ≠ "") &&
  (match p.email with
   | none => true
   | some e => emailValid e)

/-- Server-side unique-index check, enforced only when a document is
actually written. -/
def userUpdateUnique (s : Store) (id : Nat) (p : UserUpdate) : Bool :=
  (match p.username with
   | none => true
   | some un => !(s.users.any (fun u => u.id ≠ id && u.username = trimString un))) &&
  (match p.email with
   | none => true
   | some e => !(s.users.any (fun u => u.id ≠ id && u.email = e)))

/-- Merge a partial update into a user document; every schema path in the
body is applied, friends and thoughts included. -/
def applyUserUpdate (u : User) (p : UserUpdate) : User :=
  { u with
    username := (p.username.map trimString).getD u.username
    email := p.email.getD u.email
    thoughts := p.thoughts.getD u.thoughts
    friends := p.friends.getD u.friends }

/-- PUT /api/users/:userId: update validators run before the query, so an
invalid body is a 400 even for an absent id; then `findByIdAndUpdate`
returns null for an absent id (404); a write that violates the unique
index is rejected by the store (caught as 400). -/
def updateUser (s : Store) (id : Nat) (p : UserUpdate) :
    Response User × Store :=
  if !userUpdateFieldsValid p then (.badRequest, s)
  else
    match findUser s id with
    | none => (.notFound "User not found", s)
    | some _ =>
        if !userUpdateUnique s id p then (.badRequest, s)
        else
          match updateUserById s id (fun u => applyUserUpdate u p) with
          | (some u, s2) => (.ok u, s2)
          | (none, s2) => (.notFound "User not found", s2)

/-- DELETE /api/users/:userId: remove the user, then
`Thought.deleteMany(\x7busername: user.username\x7d)`. -/
def deleteUser (s : Store) (id : Nat) : Response String × Store :=
  match findUser s id with
  | none => (.notFound "User not found", s)
  | some u =>
      let s1 := { s with users := s.users.filter (fun v => v.id ≠ id) }
      let s2 := { s1 with
        thoughts := s1.thoughts.filter (fun t => t.username ≠ u.username) }
      (.ok "User deleted", s2)

/-- The write side of `$addToSet \x7bfriends: x\x7d`. -/
def withFriend (x : Nat) (u : User) : User :=
  { u with friends := addToSet u.friends x }

/-- The write side of `$pull \x7bfriends: x\x7d`. -/
def withoutFriend (x : Nat) (u : User) : User :=
  { u with friends := u.friends.filter (fun y => y ≠ x) }

/-- POST /api/users/:userId/friends/:friendId: `$addToSet` the friend into
the user's set (404 if the user is absent — no write happened), then
`$addToSet` the user into the friend's set (404 if the friend is absent —
the first write is not rolled back). -/
def addFriend (s : Store) (userId friendId : Nat) : Response User × Store :=
  match updateUserById s userId (withFriend friendId) with
  | (none, s1) => (.notFound "User not found.", s1)
  | (some user, s1) =>
      match updateUserById s1 friendId (withFriend userId) with
      | (none, s2) => (.notFound "Friend not found.", s2)
      | (some _, s2) => (.ok user, s2)

/-- DELETE /api/users/:userId/friends/:friendId: `$pull` each id from the
other's set; only a missing userId is an error, a missing friendId is not. -/
def removeFriend (s : Store) (userId friendId : Nat) : Response User × Store :=
  match updateUserById s userId (withoutFriend friendId) with
  | (none, s1) => (.notFound "User not found", s1)
  | (some user, s1) =>
      let r := updateUserById s1 friendId (withoutFriend userId)
      (.ok user, r.2)

/-- GET /api/thoughts/:thoughtId. -/
def getThought (s : Store) (id : Nat) : Response Thought :=
  match findThought s id with
  | none => .notFound "Thought not found"
  | some t => .ok t

/-- POST /api/thoughts: `Thought.create(req.body)` (thoughtText 1–280 chars
and username required), then `$push` the new id onto the `thoughts` list of
the user whose username matches — a match-nothing no-op when no such user
exists. -/
def createThought (s : Store) (p : ThoughtPayload) (now : Nat) :
    Response Thought × Store :=
  if p.thoughtText.length < 1 || p.thoughtText.length > 280 then (.badRequest, s)
  else if p.username = "" then (.badRequest, s)
  else
    let t : Thought := ⟨s.nextId, p.thoughtText, p.username, now, []⟩
    let s1 := { s with thoughts := s.thoughts ++ [t], nextId := s.nextId + 1 }
    let s2 := updateUserByUsername s1 p.username
        (fun u => { u with thoughts := u.thoughts ++ [t.id] })
    (.ok t, s2)

/-- Validity of a partial thought update under the schema validators. -/
def thoughtUpdateValid (p : ThoughtUpdate) : Bool :=
  (match p.thoughtText with
   | none => true
   | some tx => decide (1 ≤ tx.length) && decide (tx.length ≤ 280)) &&
  (match p.username with
   | none => true
   | some un => un ≠ "")

/-- Merge a partial update into a thought document. -/
def applyThoughtUpdate (t : Thought) (p : ThoughtUpdate) : Thought :=
  { t with
    thoughtText := p.thoughtText.getD t.thoughtText
    username := p.username.getD t.username }

/-- PUT /api/thoughts/:thoughtId: update validators run before the query
(400 on an invalid body even for an absent id); then 404 for an absent id;
otherwise the update is applied to the one thought document — no user
document is touched even when `username` changes. -/
def updateThought (s : Store) (id : Nat) (p : ThoughtUpdate) :
    Response Thought × Store :=
  if !thoughtUpdateValid p then (.badRequest, s)
  else
    match findThought s id with
    | none => (.notFound "Thought not found", s)
    | some t =>
        ( .ok (applyThoughtUpdate t p),
          { s with thoughts :=
              (updateFirst (fun x => x.id = id)
                (fun x => applyThoughtUpdate x p) s.thoughts) } )

/-- DELETE /api/thoughts/:thoughtId: remove the thought, then `$pull` its id
from the matching user's `thoughts` list (no-op when no user matches). -/
def deleteThought (s : Store) (id : Nat) : Response String × Store :=
  match findThought s id with
  | none => (.notFound "Thought not found", s)
  | some t =>
      let s1 := { s with thoughts := s.thoughts.filter (fun x => x.id ≠ id) }
      let s2 := updateUserByUsername s1 t.username
          (fun u => { u with thoughts := u.thoughts.filter (fun x => x ≠ t.id) })
      (.ok "Thought deleted", s2)

/-- `fid` is a member of the friends set of the user with id `uid`. -/
def hasFriend (s : Store) (uid fid : Nat) : Bool :=
  match findUser s uid with
  | none => false
  | some u => fid ∈ u.friends

/-- Referential integrity of the friendship relation over a user collection:
every entry of a `friends` set names an existing user who reciprocates. -/
def friendOk (users : List User) : Prop :=
  ∀ u ∈ users, ∀ g ∈ u.friends, ∃ v ∈ users, v.id = g ∧ u.id ∈ v.friends

instance friendOkDecidable (users : List User) : Decidable (friendOk users) := by
  unfold friendOk; infer_instance

/-- The spec's friends invariant, read off a store. -/
def FriendIntegrity (s : Store) : Prop := friendOk s.users

instance (s : Store) : Decidable (FriendIntegrity s) := by
  unfold FriendIntegrity; infer_instance

/-- No two users share a username, and none share an email. -/
def distinctCreds (s : Store) : Prop :=
  (s.users.map User.username).Nodup ∧ (s.users.map User.email).Nodup

instance (s : Store) : Decidable (distinctCreds s) := by
  unfold distinctCreds; infer_instance

/-- A two-user store used to exercise the friendship routes. -/
def alice : User := ⟨0, "alice", "a@b.com", [], []⟩

/-- Second fixture user. -/
def bob : User := ⟨1, "bob", "b@b.com", [], []⟩

/-- Store holding `alice` and `bob`, no thoughts. -/
def twoUserStore : Store := ⟨[alice, bob], [], 2⟩

/-- Store holding only `alice`. -/
def oneUserStore : Store := ⟨[alice], [], 1⟩

/-- Store where `alice` and `bob` are mutual friends. -/
def mutualStore : Store :=
  ⟨[⟨0, "alice", "a@b.com", [], [1]⟩, ⟨1, "bob", "b@b.com", [], [0]⟩], [], 2⟩

/-- Store where `alice` authored one thought. -/
def thoughtStore : Store :=
  ⟨[⟨0, "alice", "a@b.com", [2], []⟩], [⟨2, "hi", "alice", 5, []⟩], 3⟩

section Lemmas

lemma mem_addToSet {l : List Nat} {x y : Nat} :
    y ∈ addToSet l x ↔ y ∈ l ∨ y = x := by
  unfold addToSet
  by_cases h : x ∈ l
  · rw [if_pos h]
    exact ⟨Or.inl, fun hy => hy.elim id (fun e => e ▸ h)⟩
  · rw [if_neg h]; simp

lemma self_mem_addToSet (l : List Nat) (x : Nat) : x ∈ addToSet l x :=
  mem_addToSet.2 (Or.inr rfl)

lemma addToSet_of_mem {l : List Nat} {x : Nat} (h : x ∈ l) : addToSet l x = l := by
  unfold addToSet; rw [if_pos h]

lemma addToSet_idem (l : List Nat) (x : Nat) :
    addToSet (addToSet l x) x = addToSet l x :=
  addToSet_of_mem (self_mem_addToSet l x)

lemma find?_updateFirst_self {α : Type} (p : α → Bool) (f : α → α)
    (hf : ∀ x, p x = true → p (f x) = true) (l : List α) :
    (updateFirst p f l).find? p = (l.find? p).map f := by
  induction l with
  | nil => rfl
  | cons a l ih =>
    by_cases h : p a = true
    · rw [updateFirst, if_pos h, List.find?_cons_of_pos _ (hf a h),
        List.find?_cons_of_pos _ h, Option.map_some']
    · rw [updateFirst, if_neg h, List.find?_cons_of_neg _ (by simpa using h),
        List.find?_cons_of_neg _ (by simpa using h), ih]

lemma find?_updateFirst_other {α : Type} (p q : α → Bool) (f : α → α)
    (hq : ∀ x, q (f x) = q x) (hpq : ∀ x, p x = true → q x = false)
    (l : List α) :
    (updateFirst p f l).find? q = l.find? q := by
  induction l with
  | nil => rfl
  | cons a l ih =>
    by_cases h : p a = true
    · have hqa : q a = false := hpq a h
      rw [updateFirst, if_pos h, List.find?_cons_of_neg _ (by simp [hq, hqa]),
        List.find?_cons_of_neg _ (by simp [hqa])]
    · by_cases h2 : q a = true
      · rw [updateFirst, if_neg h, List.find?_cons_of_pos _ h2,
          List.find?_cons_of_pos _ h2]
      · rw [updateFirst, if_neg h, List.find?_cons_of_neg _ (by simpa using h2),
          List.find?_cons_of_neg _ (by simpa using h2), ih]

lemma mem_updateFirst_of_mem {α : Type} (p : α → Bool) (f : α → α)
    {l : List α} {v : α} (hv : v ∈ l) :
    v ∈ updateFirst p f l ∨ f v ∈ updateFirst p f l := by
  induction l with
  | nil => cases hv
  | cons a l ih =>
    rcases List.mem_cons.1 hv with h | h
    · subst h
      by_cases hp : p v = true
      · rw [updateFirst, if_pos hp]; exact Or.inr (List.mem_cons_self _ _)
      · rw [updateFirst, if_neg hp]; exact Or.inl (List.mem_cons_self _ _)
    · by_cases hp : p a = true
      · rw [updateFirst, if_pos hp]; exact Or.inl (List.mem_cons_of_mem _ h)
      · rw [updateFirst, if_neg hp]
        rcases ih h with h2 | h2
        · exact Or.inl (List.mem_cons_of_mem _ h2)
        · exact Or.inr (List.mem_cons_of_mem _ h2)

lemma of_mem_updateFirst {α : Type} (p : α → Bool) (f : α → α)
    {l : List α} {w : α} (hw : w ∈ updateFirst p f l) :
    w ∈ l ∨ ∃ v ∈ l, w = f v := by
  induction l with
  | nil => cases hw
  | cons a l ih =>
    by_cases hp : p a = true
    · rw [updateFirst, if_pos hp] at hw
      rcases List.mem_cons.1 hw with h | h
      · exact Or.inr ⟨a, List.mem_cons_self _ _, h⟩
      · exact Or.inl (List.mem_cons_of_mem _ h)
    · rw [updateFirst, if_neg hp] at hw
      rcases List.mem_cons.1 hw with h | h
      · exact Or.inl (h ▸ List.mem_cons_self _ _)
      · rcases ih h with h2 | ⟨v, hv, hfv⟩
        · exact Or.inl (List.mem_cons_of_mem _ h2)
        · exact Or.inr ⟨v, List.mem_cons_of_mem _ hv, hfv⟩

lemma updateFirst_eq_self_of_find? {α : Type} (p : α → Bool) (f : α → α)
    {l : List α} (h : ∀ x, l.find? p = some x → f x = x) :
    updateFirst p f l = l := by
  induction l with
  | nil => rfl
  | cons a l ih =>
    by_cases hp : p a = true
    · rw [updateFirst, if_pos hp, h a (List.find?_cons_of_pos _ hp)]
    · rw [updateFirst, if_neg hp]
      rw [ih (fun x hx => h x (by rw [List.find?_cons_of_neg _ (by simpa using hp)]; exact hx))]

lemma map_updateFirst {α β : Type} (k : α → β) (p : α → Bool) (f : α → α)
    (hk : ∀ x, k (f x) = k x) (l : List α) :
    (updateFirst p f l).map k = l.map k := by
  induction l with
  | nil => rfl
  | cons a l ih =>
    by_cases hp : p a = true
    · rw [updateFirst, if_pos hp, List.map_cons, List.map_cons, hk]
    · rw [updateFirst, if_neg hp, List.map_cons, List.map_cons, ih]

lemma updateUserById_fst (s : Store) (i : Nat) (f : User → User) :
    (updateUserById s i f).1 = (findUser s i).map f := by
  unfold updateUserById findUser
  cases s.users.find? (fun u => u.id = i) <;> rfl

lemma updateUserById_thoughts (s : Store) (i : Nat) (f : User → User) :
    (updateUserById s i f).2.thoughts = s.thoughts := by
  unfold updateUserById
  cases s.users.find? (fun u => u.id = i) <;> rfl

lemma updateUserById_nextId (s : Store) (i : Nat) (f : User → User) :
    (updateUserById s i f).2.nextId = s.nextId := by
  unfold updateUserById
  cases s.users.find? (fun u => u.id = i) <;> rfl

lemma findUser_updateUserById (s : Store) (i : Nat) (f : User → User)
    (hf : ∀ u, (f u).id = u.id) (j : Nat) :
    findUser (updateUserById s i f).2 j =
      if j = i then (findUser s j).map f else findUser s j := by
  unfold updateUserById
  cases h : s.users.find? (fun u => u.id = i) with
  | none =>
    by_cases hij : j = i
    · subst hij; rw [if_pos rfl]; unfold findUser; rw [h]; rfl
    · rw [if_neg hij]
  | some u =>
    by_cases hij : j = i
    · subst hij
      rw [if_pos rfl]
      show (updateFirst (fun v => v.id = j) f s.users).find? (fun v => v.id = j)
          = (s.users.find? (fun v => v.id = j)).map f
      exact find?_updateFirst_self _ f (fun x hx => by simpa [hf] using hx) s.users
    · rw [if_neg hij]
      show (updateFirst (fun v => v.id = i) f s.users).find? (fun v => v.id = j)
          = s.users.find? (fun v => v.id = j)
      refine find?_updateFirst_other _ _ f (fun x => by simp [hf]) (fun x hx => ?_) s.users
      have : x.id = i := by simpa using hx
      simp [this, hij, Ne.symm]

lemma users_updateUserById (s : Store) (i : Nat) (f : User → User) :
    (updateUserById s i f).2.users = s.users ∨
    (updateUserById s i f).2.users = updateFirst (fun v => v.id = i) f s.users := by
  unfold updateUserById
  cases s.users.find? (fun u => u.id = i)
  · exact Or.inl rfl
  · exact Or.inr rfl

lemma findUser_of_mem (s : Store) (hids : (s.users.map User.id).Nodup)
    {u : User} (hu : u ∈ s.users) : findUser s u.id = some u := by
  unfold findUser
  cases h : s.users.find? (fun v => v.id = u.id) with
  | none =>
    exact absurd (List.find?_eq_none.1 h u hu) (by simp)
  | some w =>
    have hw : w.id = u.id := by simpa using List.find?_some h
    have hmem : w ∈ s.users := List.mem_of_find?_eq_some h
    rw [List.inj_on_of_nodup_map hids hmem hu hw]

lemma mem_of_findUser {s : Store} {j : Nat} {u : User}
    (h : findUser s j = some u) : u ∈ s.users ∧ u.id = j :=
  ⟨List.mem_of_find?_eq_some h, by simpa using List.find?_some h⟩

lemma withFriend_id (x : Nat) (u : User) : (withFriend x u).id = u.id := rfl

lemma withoutFriend_id (x : Nat) (u : User) : (withoutFriend x u).id = u.id := rfl

lemma withFriend_eq_self {u : User} {x : Nat} (h : x ∈ u.friends) :
    withFriend x u = u := by
  cases u; simp [withFriend, addToSet_of_mem h]

lemma updateUserById_of_none {s : Store} {i : Nat} (f : User → User)
    (h : findUser s i = none) : updateUserById s i f = (none, s) := by
  unfold updateUserById; unfold findUser at h; rw [h]

lemma updateUserById_of_some {s : Store} {i : Nat} {u : User} (f : User → User)
    (h : findUser s i = some u) :
    updateUserById s i f =
      (some (f u),
       { s with users := updateFirst (fun v => v.id = i) f s.users }) := by
  unfold updateUserById; unfold findUser at h; rw [h]

lemma updateUserById_of_fix {s : Store} {i : Nat} {u : User} (f : User → User)
    (h : findUser s i = some u) (hfix : f u = u) :
    updateUserById s i f = (some u, s) := by
  rw [updateUserById_of_some f h, hfix]
  have : updateFirst (fun v => v.id = i) f s.users = s.users := by
    refine updateFirst_eq_self_of_find? _ _ (fun x hx => ?_)
    have : x = u := by
      have h2 : s.users.find? (fun v => v.id = i) = some u := h
      rw [h2] at hx; exact (Option.some_inj.1 hx).symm
    rw [this, hfix]
  rw [this]

lemma addFriend_eq_noUser {s : Store} {a b : Nat} (h : findUser s a = none) :
    addFriend s a b = (.notFound "User not found.", s) := by
  unfold addFriend
  rw [updateUserById_of_none _ h]

lemma addFriend_eq_noFriend {s : Store} {a b : Nat} {A : User}
    (hA : findUser s a = some A)
    (hB : findUser (updateUserById s a (withFriend b)).2 b = none) :
    addFriend s a b =
      (.notFound "Friend not found.", (updateUserById s a (withFriend b)).2) := by
  unfold addFriend
  rw [updateUserById_of_some _ hA] at hB ⊢
  simp [updateUserById_of_none _ hB]

lemma addFriend_eq_ok {s : Store} {a b : Nat} {A B1 : User}
    (hA : findUser s a = some A)
    (hB : findUser (updateUserById s a (withFriend b)).2 b = some B1) :
    addFriend s a b =
      (.ok (withFriend b A),
       (updateUserById (updateUserById s a (withFriend b)).2 b (withFriend a)).2) := by
  unfold addFriend
  rw [updateUserById_of_some _ hA] at hB ⊢
  simp [updateUserById_of_some _ hB]

lemma removeFriend_eq_noUser {s : Store} {a b : Nat} (h : findUser s a = none) :
    removeFriend s a b = (.notFound "User not found", s) := by
  unfold removeFriend
  rw [updateUserById_of_none _ h]

lemma removeFriend_eq_found {s : Store} {a b : Nat} {A : User}
    (hA : findUser s a = some A) :
    removeFriend s a b =
      (.ok (withoutFriend b A),
       (updateUserById (updateUserById s a (withoutFriend b)).2 b (withoutFriend a)).2) := by
  unfold removeFriend
  rw [updateUserById_of_some _ hA]

lemma find?_updateFirst_username_of_mem (f : User → User)
    (hf : ∀ u, (f u).id = u.id) {l : List User} {U : User} (hU : U ∈ l)
    (hids : (l.map User.id).Nodup) (hnames : (l.map User.username).Nodup) :
    (updateFirst (fun v => v.username = U.username) f l).find?
      (fun v => v.id = U.id) = some (f U) := by
  induction l with
  | nil => cases hU
  | cons a l ih =>
    rcases List.mem_cons.1 hU with h | h
    · subst h
      rw [updateFirst, if_pos (by simp), List.find?_cons_of_pos _ (by simp [hf])]
    · have han : a.username ≠ U.username := by
        intro e
        have hm : U.username ∈ l.map User.username := List.mem_map_of_mem _ h
        rw [← e] at hm
        exact (List.nodup_cons.1 hnames).1 hm
      have hai : a.id ≠ U.id := by
        intro e
        have hm : U.id ∈ l.map User.id := List.mem_map_of_mem _ h
        rw [← e] at hm
        exact (List.nodup_cons.1 hids).1 hm
      rw [updateFirst, if_neg (by simpa using han),
        List.find?_cons_of_neg _ (by simpa using hai)]
      exact ih h (List.nodup_cons.1 hids).2 (List.nodup_cons.1 hnames).2

lemma distinctCreds_createUser (s : Store) (p : UserPayload)
    (h : distinctCreds s) : distinctCreds (createUser s p).2 := by
  simp only [createUser]
  split
  next => exact h
  next hc1 =>
    split
    next => exact h
    next hc2 =>
      split
      next => exact h
      next hc3 =>
        split
        next => exact h
        next hc4 =>
          obtain ⟨hn, he⟩ := h
          constructor
          · show (List.map User.username
              (s.users ++ [⟨s.nextId, trimString p.username, p.email,
                p.thoughts, p.friends⟩])).Nodup
            rw [List.map_append, List.nodup_append]
            refine ⟨hn, List.nodup_singleton _, fun x hx hy => ?_⟩
            obtain ⟨v, hv, hvx⟩ := List.mem_map.1 hx
            have hxe : x = trimString p.username := by simpa using hy
            exact hc3 (List.any_eq_true.2 ⟨v, hv, by simp [hvx, hxe]⟩)
          · show (List.map User.email
              (s.users ++ [⟨s.nextId, trimString p.username, p.email,
                p.thoughts, p.friends⟩])).Nodup
            rw [List.map_append, List.nodup_append]
            refine ⟨he, List.nodup_singleton _, fun x hx hy => ?_⟩
            obtain ⟨v, hv, hvx⟩ := List.mem_map.1 hx
            have hxe : x = p.email := by simpa using hy
            exact hc4 (List.any_eq_true.2 ⟨v, hv, by simp [hvx, hxe]⟩)

lemma mem_withFriend {u : User} {x y : Nat} :
    y ∈ (withFriend x u).friends ↔ y ∈ u.friends ∨ y = x := by
  simp [withFriend, mem_addToSet]

lemma mem_withFriend_of_mem {u : User} (x : Nat) {y : Nat}
    (h : y ∈ u.friends) : y ∈ (withFriend x u).friends :=
  mem_withFriend.2 (Or.inl h)

lemma mem_withoutFriend {u : User} {x y : Nat} :
    y ∈ (withoutFriend x u).friends ↔ y ∈ u.friends ∧ y ≠ x := by
  simp [withoutFriend, List.mem_filter]

lemma friendOk_updateFirst_of_pres (p : User → Bool) (f : User → User)
    (hid : ∀ u, (f u).id = u.id) (hfr : ∀ u, (f u).friends = u.friends)
    {l : List User} (h : friendOk l) : friendOk (updateFirst p f l) := by
  intro u2 hu2 g hg
  rcases of_mem_updateFirst p f hu2 with hu | ⟨u, hu, rfl⟩
  · obtain ⟨v, hv, hvid, hvfr⟩ := h u2 hu g hg
    rcases mem_updateFirst_of_mem p f hv with h2 | h2
    · exact ⟨v, h2, hvid, hvfr⟩
    · exact ⟨f v, h2, by rw [hid]; exact hvid, by rw [hfr]; exact hvfr⟩
  · rw [hfr] at hg
    obtain ⟨v, hv, hvid, hvfr⟩ := h u hu g hg
    rcases mem_updateFirst_of_mem p f hv with h2 | h2
    · exact ⟨v, h2, hvid, by rw [hid]; exact hvfr⟩
    · exact ⟨f v, h2, by rw [hid]; exact hvid, by rw [hfr, hid]; exact hvfr⟩

lemma usersMapId_updateUserById (s : Store) (i : Nat) (f : User → User)
    (hf : ∀ u, (f u).id = u.id) :
    (updateUserById s i f).2.users.map User.id = s.users.map User.id := by
  rcases users_updateUserById s i f with h | h
  · rw [h]
  · rw [h]; exact map_updateFirst User.id _ f hf s.users

lemma findUser_two_updates (s : Store) (a b : Nat) (f g : User → User)
    (hfid : ∀ u, (f u).id = u.id) (hgid : ∀ u, (g u).id = u.id) (j : Nat) :
    findUser (updateUserById (updateUserById s a f).2 b g).2 j =
      if j = b then
        ((if j = a then (findUser s j).map f else findUser s j).map g)
      else (if j = a then (findUser s j).map f else findUser s j) := by
  rw [findUser_updateUserById _ b g hgid j, findUser_updateUserById s a f hfid j]

lemma friendOk_addFriend (s : Store) (hids : (s.users.map User.id).Nodup)
    (hI : FriendIntegrity s) (a b : Nat)
    (ha : (findUser s a).isSome = true) (hb : (findUser s b).isSome = true) :
    FriendIntegrity (addFriend s a b).2 := by
  obtain ⟨A, hA⟩ := Option.isSome_iff_exists.1 ha
  have hS1bs : (findUser (updateUserById s a (withFriend b)).2 b).isSome = true := by
    rw [findUser_updateUserById s a (withFriend b) (fun v => rfl) b]
    split
    · simpa using hb
    · exact hb
  obtain ⟨B1, hB1⟩ := Option.isSome_iff_exists.1 hS1bs
  have key := addFriend_eq_ok hA hB1
  have hmaster : ∀ j, findUser (addFriend s a b).2 j =
      if j = b then
        ((if j = a then (findUser s j).map (withFriend b) else findUser s j).map
          (withFriend a))
      else (if j = a then (findUser s j).map (withFriend b) else findUser s j) := by
    intro j
    simp only [key]
    exact findUser_two_updates s a b (withFriend b) (withFriend a)
      (fun v => rfl) (fun v => rfl) j
  have hmapid : (addFriend s a b).2.users.map User.id = s.users.map User.id := by
    simp only [key]
    rw [usersMapId_updateUserById _ b (withFriend a) (fun v => rfl),
      usersMapId_updateUserById s a (withFriend b) (fun v => rfl)]
  have hids2 : ((addFriend s a b).2.users.map User.id).Nodup := by
    rw [hmapid]; exact hids
  intro u2 hu2 g hg
  have hfu2 : findUser (addFriend s a b).2 u2.id = some u2 :=
    findUser_of_mem _ hids2 hu2
  rw [hmaster u2.id] at hfu2
  obtain ⟨u0, hu0, hcase⟩ :
      ∃ u0, findUser s u2.id = some u0 ∧
        (g ∈ u0.friends ∨ (u2.id = a ∧ g = b) ∨ (u2.id = b ∧ g = a)) := by
    by_cases hjb : u2.id = b <;> by_cases hja : u2.id = a
    · rw [if_pos hjb, if_pos hja] at hfu2
      cases hu0 : findUser s u2.id with
      | none => rw [hu0] at hfu2; simp at hfu2
      | some u0 =>
        rw [hu0] at hfu2
        simp only [Option.map_some', Option.some_inj] at hfu2
        refine ⟨u0, rfl, ?_⟩
        rw [← hfu2] at hg
        rcases mem_withFriend.1 hg with h | h
        · rcases mem_withFriend.1 h with h2 | h2
          · exact Or.inl h2
          · exact Or.inr (Or.inl ⟨hja, h2⟩)
        · exact Or.inr (Or.inr ⟨hjb, h⟩)
    · rw [if_pos hjb, if_neg hja] at hfu2
      cases hu0 : findUser s u2.id with
      | none => rw [hu0] at hfu2; simp at hfu2
      | some u0 =>
        rw [hu0] at hfu2
        simp only [Option.map_some', Option.some_inj] at hfu2
        refine ⟨u0, rfl, ?_⟩
        rw [← hfu2] at hg
        rcases mem_withFriend.1 hg with h | h
        · exact Or.inl h
        · exact Or.inr (Or.inr ⟨hjb, h⟩)
    · rw [if_neg hjb, if_pos hja] at hfu2
      cases hu0 : findUser s u2.id with
      | none => rw [hu0] at hfu2; simp at hfu2
      | some u0 =>
        rw [hu0] at hfu2
        simp only [Option.map_some', Option.some_inj] at hfu2
        refine ⟨u0, rfl, ?_⟩
        rw [← hfu2] at hg
        rcases mem_withFriend.1 hg with h | h
        · exact Or.inl h
        · exact Or.inr (Or.inl ⟨hja, h⟩)
    · rw [if_neg hjb, if_neg hja] at hfu2
      exact ⟨u2, hfu2, Or.inl hg⟩
  obtain ⟨hu0mem, hu0id⟩ := mem_of_findUser hu0
  rcases hcase with hgf | ⟨hja, hgb⟩ | ⟨hjb, hga⟩
  · obtain ⟨v, hv, hvid, hvfr⟩ := hI u0 hu0mem g hgf
    have hfv : findUser s g = some v := by
      rw [← hvid]; exact findUser_of_mem s hids hv
    have h2 := hmaster g
    rw [hfv] at h2
    have hmem2 : u2.id ∈ v.friends := hu0id ▸ hvfr
    by_cases hgb : g = b <;> by_cases hga : g = a
    · rw [if_pos hgb, if_pos hga] at h2
      simp only [Option.map_some'] at h2
      exact ⟨_, (mem_of_findUser h2).1, (mem_of_findUser h2).2,
        mem_withFriend_of_mem a (mem_withFriend_of_mem b hmem2)⟩
    · rw [if_pos hgb, if_neg hga] at h2
      simp only [Option.map_some'] at h2
      exact ⟨_, (mem_of_findUser h2).1, (mem_of_findUser h2).2,
        mem_withFriend_of_mem a hmem2⟩
    · rw [if_neg hgb, if_pos hga] at h2
      simp only [Option.map_some'] at h2
      exact ⟨_, (mem_of_findUser h2).1, (mem_of_findUser h2).2,
        mem_withFriend_of_mem b hmem2⟩
    · rw [if_neg hgb, if_neg hga] at h2
      exact ⟨_, (mem_of_findUser h2).1, (mem_of_findUser h2).2, hmem2⟩
  · obtain ⟨B0, hB0⟩ := Option.isSome_iff_exists.1 hb
    have h2 := hmaster g
    rw [if_pos hgb, hgb, hB0] at h2
    by_cases hba : b = a
    · rw [if_pos hba] at h2
      simp only [Option.map_some'] at h2
      refine ⟨_, (mem_of_findUser h2).1, ?_, mem_withFriend.2 (Or.inr hja)⟩
      rw [hgb]; exact (mem_of_findUser h2).2
    · rw [if_neg hba] at h2
      simp only [Option.map_some'] at h2
      refine ⟨_, (mem_of_findUser h2).1, ?_, mem_withFriend.2 (Or.inr hja)⟩
      rw [hgb]; exact (mem_of_findUser h2).2
  · have h2 := hmaster g
    rw [hga] at h2
    by_cases hab : a = b
    · rw [if_pos hab, if_pos rfl, hA] at h2
      simp only [Option.map_some'] at h2
      refine ⟨_, (mem_of_findUser h2).1, ?_, ?_⟩
      · rw [hga]; exact (mem_of_findUser h2).2
      · rw [hjb]
        exact mem_withFriend_of_mem a (mem_withFriend.2 (Or.inr rfl))
    · rw [if_neg hab, if_pos rfl, hA] at h2
      simp only [Option.map_some'] at h2
      refine ⟨_, (mem_of_findUser h2).1, ?_, ?_⟩
      · rw [hga]; exact (mem_of_findUser h2).2
      · rw [hjb]
        exact mem_withFriend.2 (Or.inr rfl)

lemma friendOk_removeFriend (s : Store) (hids : (s.users.map User.id).Nodup)
    (hI : FriendIntegrity s) (a b : Nat) :
    FriendIntegrity (removeFriend s a b).2 := by
  cases hA : findUser s a with
  | none => rw [removeFriend_eq_noUser hA]; exact hI
  | some A =>
    have key := removeFriend_eq_found (b := b) hA
    have hmaster : ∀ j, findUser (removeFriend s a b).2 j =
        if j = b then
          ((if j = a then (findUser s j).map (withoutFriend b) else findUser s j).map
            (withoutFriend a))
        else (if j = a then (findUser s j).map (withoutFriend b) else findUser s j) := by
      intro j
      simp only [key]
      exact findUser_two_updates s a b (withoutFriend b) (withoutFriend a)
        (fun v => rfl) (fun v => rfl) j
    have hmapid : (removeFriend s a b).2.users.map User.id = s.users.map User.id := by
      simp only [key]
      rw [usersMapId_updateUserById _ b (withoutFriend a) (fun v => rfl),
        usersMapId_updateUserById s a (withoutFriend b) (fun v => rfl)]
    have hids2 : ((removeFriend s a b).2.users.map User.id).Nodup := by
      rw [hmapid]; exact hids
    intro u2 hu2 g hg
    have hfu2 : findUser (removeFriend s a b).2 u2.id = some u2 :=
      findUser_of_mem _ hids2 hu2
    rw [hmaster u2.id] at hfu2
    obtain ⟨u0, hu0, hgf, himpA, himpB⟩ :
        ∃ u0, findUser s u2.id = some u0 ∧ g ∈ u0.friends ∧
          (u2.id = a → g ≠ b) ∧ (u2.id = b → g ≠ a) := by
      by_cases hjb : u2.id = b <;> by_cases hja : u2.id = a
      · rw [if_pos hjb, if_pos hja] at hfu2
        cases hu0 : findUser s u2.id with
        | none => rw [hu0] at hfu2; simp at hfu2
        | some u0 =>
          rw [hu0] at hfu2
          simp only [Option.map_some', Option.some_inj] at hfu2
          rw [← hfu2] at hg
          obtain ⟨hmem1, hne1⟩ := mem_withoutFriend.1 hg
          obtain ⟨hmem0, hne0⟩ := mem_withoutFriend.1 hmem1
          exact ⟨u0, rfl, hmem0, fun _ => hne0, fun _ => hne1⟩
      · rw [if_pos hjb, if_neg hja] at hfu2
        cases hu0 : findUser s u2.id with
        | none => rw [hu0] at hfu2; simp at hfu2
        | some u0 =>
          rw [hu0] at hfu2
          simp only [Option.map_some', Option.some_inj] at hfu2
          rw [← hfu2] at hg
          obtain ⟨hmem0, hne1⟩ := mem_withoutFriend.1 hg
          exact ⟨u0, rfl, hmem0, fun h => absurd h hja, fun _ => hne1⟩
      · rw [if_neg hjb, if_pos hja] at hfu2
        cases hu0 : findUser s u2.id with
        | none => rw [hu0] at hfu2; simp at hfu2
        | some u0 =>
          rw [hu0] at hfu2
          simp only [Option.map_some', Option.some_inj] at hfu2
          rw [← hfu2] at hg
          obtain ⟨hmem0, hne0⟩ := mem_withoutFriend.1 hg
          exact ⟨u0, rfl, hmem0, fun _ => hne0, fun h => absurd h hjb⟩
      · rw [if_neg hjb, if_neg hja] at hfu2
        exact ⟨u2, hfu2, hg, fun h => absurd h hja, fun h => absurd h hjb⟩
    obtain ⟨hu0mem, hu0id⟩ := mem_of_findUser hu0
    obtain ⟨v, hv, hvid, hvfr⟩ := hI u0 hu0mem g hgf
    have hfv : findUser s g = some v := by
      rw [← hvid]; exact findUser_of_mem s hids hv
    have h2 := hmaster g
    rw [hfv] at h2
    have hmem2 : u2.id ∈ v.friends := hu0id ▸ hvfr
    have hne1 : g = b → u2.id ≠ a := fun hgb hja => himpA hja hgb
    have hne2 : g = a → u2.id ≠ b := fun hga hjb => himpB hjb hga
    by_cases hgb : g = b <;> by_cases hga : g = a
    · rw [if_pos hgb, if_pos hga] at h2
      simp only [Option.map_some'] at h2
      exact ⟨_, (mem_of_findUser h2).1, (mem_of_findUser h2).2,
        mem_withoutFriend.2 ⟨mem_withoutFriend.2 ⟨hmem2, hne2 hga⟩, hne1 hgb⟩⟩
    · rw [if_pos hgb, if_neg hga] at h2
      simp only [Option.map_some'] at h2
      exact ⟨_, (mem_of_findUser h2).1, (mem_of_findUser h2).2,
        mem_withoutFriend.2 ⟨hmem2, hne1 hgb⟩⟩
    · rw [if_neg hgb, if_pos hga] at h2
      simp only [Option.map_some'] at h2
      exact ⟨_, (mem_of_findUser h2).1, (mem_of_findUser h2).2,
        mem_withoutFriend.2 ⟨hmem2, hne2 hga⟩⟩
    · rw [if_neg hgb, if_neg hga] at h2
      exact ⟨_, (mem_of_findUser h2).1, (mem_of_findUser h2).2, hmem2⟩

lemma friendOk_createUser (s : Store) (hI : FriendIntegrity s) (p : UserPayload)
    (hpf : p.friends = []) : FriendIntegrity (createUser s p).2 := by
  simp only [createUser]
  split
  next => exact hI
  next =>
    split
    next => exact hI
    next =>
      split
      next => exact hI
      next =>
        split
        next => exact hI
        next =>
          intro u2 hu2 g hg
          rcases List.mem_append.1 hu2 with h | h
          · obtain ⟨v, hv, hvid, hvfr⟩ := hI u2 h g hg
            exact ⟨v, List.mem_append_left _ hv, hvid, hvfr⟩
          · have he : u2 = ⟨s.nextId, trimString p.username, p.email,
                p.thoughts, p.friends⟩ := by
              simpa using h
            rw [he] at hg
            rw [hpf] at hg
            simp at hg

lemma friendOk_updateUserById (s : Store) (hI : FriendIntegrity s) (i : Nat)
    (f : User → User) (hid : ∀ u, (f u).id = u.id)
    (hfr : ∀ u, (f u).friends = u.friends) :
    FriendIntegrity (updateUserById s i f).2 := by
  rcases users_updateUserById s i f with h | h
  · show friendOk (updateUserById s i f).2.users
    rw [h]; exact hI
  · show friendOk (updateUserById s i f).2.users
    rw [h]; exact friendOk_updateFirst_of_pres _ f hid hfr hI

lemma updateUser_snd_cases (s : Store) (i : Nat) (p : UserUpdate) :
    (updateUser s i p).2 = s ∨
    (updateUser s i p).2 = (updateUserById s i (fun u => applyUserUpdate u p)).2 := by
  unfold updateUser
  by_cases hval : userUpdateFieldsValid p = true
  · cases h : findUser s i with
    | none => left; simp [hval, h]
    | some u =>
      by_cases hq : userUpdateUnique s i p = true
      · cases e : updateUserById s i (fun v => applyUserUpdate v p) with
        | mk r s2 =>
          cases r with
          | none => right; simp [hval, h, hq, e]
          | some w => right; simp [hval, h, hq, e]
      · left; simp [hval, h, hq]
  · left; simp [hval]

lemma friendOk_updateUser (s : Store) (hI : FriendIntegrity s) (i : Nat)
    (p : UserUpdate) (hpf : p.friends = none) :
    FriendIntegrity (updateUser s i p).2 := by
  rcases updateUser_snd_cases s i p with h | h
  · show friendOk (updateUser s i p).2.users
    rw [h]; exact hI
  · show friendOk (updateUser s i p).2.users
    rw [h]
    exact friendOk_updateUserById s hI i (fun u => applyUserUpdate u p)
      (fun u => rfl) (fun u => by simp [applyUserUpdate, hpf])

lemma friendOk_createThought (s : Store) (hI : FriendIntegrity s)
    (p : ThoughtPayload) (now : Nat) :
    FriendIntegrity (createThought s p now).2 := by
  simp only [createThought]
  split
  next => exact hI
  next =>
    split
    next => exact hI
    next =>
      show friendOk (updateFirst (fun v => v.username = p.username)
        (fun u => { u with thoughts := u.thoughts ++ [s.nextId] }) s.users)
      exact friendOk_updateFirst_of_pres (fun v => v.username = p.username)
        (fun u => { u with thoughts := u.thoughts ++ [s.nextId] })
        (fun u => rfl) (fun u => rfl) hI

lemma friendOk_deleteThought (s : Store) (hI : FriendIntegrity s) (i : Nat) :
    FriendIntegrity (deleteThought s i).2 := by
  unfold deleteThought
  cases h : findThought s i with
  | none => exact hI
  | some t =>
    show friendOk (updateFirst (fun v => v.username = t.username)
      (fun u => { u with thoughts := u.thoughts.filter (fun x => x ≠ t.id) }) s.users)
    exact friendOk_updateFirst_of_pres (fun v => v.username = t.username)
      (fun u => { u with thoughts := u.thoughts.filter (fun x => x ≠ t.id) })
      (fun u => rfl) (fun u => rfl) hI

lemma updateThought_users (s : Store) (id : Nat) (p : ThoughtUpdate) :
    (updateThought s id p).2.users = s.users := by
  unfold updateThought
  split
  next => rfl
  next =>
    cases h : findThought s id with
    | none => rfl
    | some t => rfl

lemma friendOk_updateThought (s : Store) (hI : FriendIntegrity s) (i : Nat)
    (p : ThoughtUpdate) : FriendIntegrity (updateThought s i p).2 := by
  show friendOk (updateThought s i p).2.users
  rw [updateThought_users]
  exact hI

lemma updateThought_nextId (s : Store) (id : Nat) (p : ThoughtUpdate) :
    (updateThought s id p).2.nextId = s.nextId := by
  unfold updateThought
  split
  next => rfl
  next =>
    cases h : findThought s id with
    | none => rfl
    | some t => rfl

lemma findThought_updateThought (s : Store) (id : Nat) (p : ThoughtUpdate)
    {j : Nat} (hj : j ≠ id) :
    findThought (updateThought s id p).2 j = findThought s j := by
  unfold updateThought
  split
  next => rfl
  next =>
    cases h : findThought s id with
    | none => rfl
    | some t =>
      show (updateFirst (fun x => x.id = id) (fun x => applyThoughtUpdate x p)
          s.thoughts).find? (fun x => x.id = j) = s.thoughts.find? (fun x => x.id = j)
      refine find?_updateFirst_other _ _ _ (fun x => ?_) (fun x hx => ?_) s.thoughts
      · simp [applyThoughtUpdate]
      · have hxid : x.id = id := by simpa using hx
        simp [hxid, hj, Ne.symm]

end Lemmas

section Claims

/-- C7 counterexample: updating an absent user with an invalid email body
answers 400, not 404 — runValidators checks the body before the query, so
a non-resolving identifier does not always yield NotFound. -/
theorem notFound_propagation_cex :
    findUser ⟨[], [], 0⟩ 0 = none ∧
    (updateUser ⟨[], [], 0⟩ 0 ⟨none, some "notanemail", none, none⟩).1
      = .badRequest := by decide

/-- C7 (amended): Get and Delete with a non-resolving identifier always
answer 404 NotFound; Update answers 404 whenever the body passes the
schema's field validators, and 400 otherwise (the validators run before
the lookup); a store failure is never produced. -/
theorem notFound_propagation (s : Store) (id : Nat) :
    (findUser s id = none →
      getUser s id = .notFound "User not found" ∧
      (∀ p, userUpdateFieldsValid p = true →
        updateUser s id p = (.notFound "User not found", s)) ∧
      (∀ p, userUpdateFieldsValid p = false →
        updateUser s id p = (.badRequest, s)) ∧
      deleteUser s id = (.notFound "User not found", s)) ∧
    (findThought s id = none →
      getThought s id = .notFound "Thought not found" ∧
      (∀ p, thoughtUpdateValid p = true →
        updateThought s id p = (.notFound "Thought not found", s)) ∧
      (∀ p, thoughtUpdateValid p = false →
        updateThought s id p = (.badRequest, s)) ∧
      deleteThought s id = (.notFound "Thought not found", s)) := by
  constructor
  · intro h
    refine ⟨?_, fun p hv => ?_, fun p hv => ?_, ?_⟩
    · unfold getUser; rw [h]
    · unfold updateUser; rw [hv]; simp [h]
    · unfold updateUser; rw [hv]; rfl
    · unfold deleteUser; rw [h]
  · intro h
    refine ⟨?_, fun p hv => ?_, fun p hv => ?_, ?_⟩
    · unfold getThought; rw [h]
    · unfold updateThought; rw [hv]; simp [h]
    · unfold updateThought; rw [hv]; rfl
    · unfold deleteThought; rw [h]

/-- Witness for the amended C7, at an empty store and identifier 0. -/
theorem notFound_propagation_witness :
    getUser ⟨[], [], 0⟩ 0 = .notFound "User not found" ∧
    updateUser ⟨[], [], 0⟩ 0 ⟨none, none, none, none⟩
      = (.notFound "User not found", ⟨[], [], 0⟩) ∧
    updateUser ⟨[], [], 0⟩ 0 ⟨none, some "bad", none, none⟩
      = (.badRequest, ⟨[], [], 0⟩) ∧
    deleteUser ⟨[], [], 0⟩ 0 = (.notFound "User not found", ⟨[], [], 0⟩) ∧
    getThought ⟨[], [], 0⟩ 0 = .notFound "Thought not found" ∧
    updateThought ⟨[], [], 0⟩ 0 ⟨none, none⟩
      = (.notFound "Thought not found", ⟨[], [], 0⟩) ∧
    updateThought ⟨[], [], 0⟩ 0 ⟨some "", none⟩
      = (.badRequest, ⟨[], [], 0⟩) ∧
    deleteThought ⟨[], [], 0⟩ 0 = (.notFound "Thought not found", ⟨[], [], 0⟩) := by
  obtain ⟨h1, h2⟩ := notFound_propagation ⟨[], [], 0⟩ 0
  obtain ⟨a1, a2, a3, a4⟩ := h1 rfl
  obtain ⟨b1, b2, b3, b4⟩ := h2 rfl
  exact ⟨a1, a2 _ (by decide), a3 _ (by decide), a4,
    b1, b2 _ (by decide), b3 _ (by decide), b4⟩

/-- C9: updating a Thought touches only that thought document: the user
collection and the id counter are untouched, and every other thought is
retrieved unchanged, even when the update rewrites `username`. -/
theorem updateThought_frame (s : Store) (id : Nat) (p : ThoughtUpdate) :
    (updateThought s id p).2.users = s.users ∧
    (updateThought s id p).2.nextId = s.nextId ∧
    ∀ j, j ≠ id → findThought (updateThought s id p).2 j = findThought s j :=
  ⟨updateThought_users s id p, updateThought_nextId s id p,
   fun _ hj => findThought_updateThought s id p hj⟩

/-- Witness for C9: renaming the author of thought 2 leaves the user
collection intact and thought 7 lookups unchanged. -/
theorem updateThought_frame_witness :
    (updateThought thoughtStore 2 ⟨none, some "carol"⟩).2.users = thoughtStore.users ∧
    findThought (updateThought thoughtStore 2 ⟨none, some "carol"⟩).2 7 =
      findThought thoughtStore 7 := by
  obtain ⟨h1, _, h3⟩ := updateThought_frame thoughtStore 2 ⟨none, some "carol"⟩
  exact ⟨h1, h3 7 (by decide)⟩

/-- C10: AddFriend(A, A) succeeds for any present user A and records A as
a member of its own friends set. -/
theorem addFriend_self (s : Store) (A : User) (hA : findUser s A.id = some A) :
    (addFriend s A.id A.id).1 = .ok (withFriend A.id A) ∧
    hasFriend (addFriend s A.id A.id).2 A.id A.id = true := by
  have h1 : findUser (updateUserById s A.id (withFriend A.id)).2 A.id
      = some (withFriend A.id A) := by
    rw [findUser_updateUserById s A.id (withFriend A.id) (fun u => rfl) A.id, if_pos rfl, hA]; rfl
  have key := addFriend_eq_ok hA h1
  have h2 : findUser (updateUserById (updateUserById s A.id (withFriend A.id)).2
        A.id (withFriend A.id)).2 A.id
      = some (withFriend A.id (withFriend A.id A)) := by
    rw [findUser_updateUserById _ A.id (withFriend A.id) (fun u => rfl) A.id, if_pos rfl, h1]; rfl
  refine ⟨by rw [key], ?_⟩
  simp only [key, hasFriend]
  rw [h2]
  simp [withFriend, mem_addToSet]

/-- Witness for C10, at the one-user store. -/
theorem addFriend_self_witness :
    (addFriend oneUserStore 0 0).1 = .ok (withFriend 0 alice) ∧
    hasFriend (addFriend oneUserStore 0 0).2 0 0 = true :=
  addFriend_self oneUserStore alice rfl

/-- C1: for distinct present users A and B, AddFriend(A, B) succeeds and
makes each a member of the other's friends set; RemoveFriend(A, B)
succeeds and leaves neither a member of the other's set. -/
theorem friend_symmetry (s : Store) (A B : User)
    (hA : findUser s A.id = some A) (hB : findUser s B.id = some B)
    (hne : A.id ≠ B.id) :
    (addFriend s A.id B.id).1 = .ok (withFriend B.id A) ∧
    hasFriend (addFriend s A.id B.id).2 A.id B.id = true ∧
    hasFriend (addFriend s A.id B.id).2 B.id A.id = true ∧
    (removeFriend s A.id B.id).1 = .ok (withoutFriend B.id A) ∧
    hasFriend (removeFriend s A.id B.id).2 A.id B.id = false ∧
    hasFriend (removeFriend s A.id B.id).2 B.id A.id = false := by
  have h1 : findUser (updateUserById s A.id (withFriend B.id)).2 B.id = some B := by
    rw [findUser_updateUserById s A.id (withFriend B.id) (fun u => rfl) B.id,
      if_neg (Ne.symm hne), hB]
  have key := addFriend_eq_ok hA h1
  have hfA : findUser (updateUserById (updateUserById s A.id (withFriend B.id)).2
        B.id (withFriend A.id)).2 A.id = some (withFriend B.id A) := by
    rw [findUser_updateUserById _ B.id (withFriend A.id) (fun u => rfl) A.id, if_neg hne,
      findUser_updateUserById s A.id (withFriend B.id) (fun u => rfl) A.id, if_pos rfl, hA]; rfl
  have hfB : findUser (updateUserById (updateUserById s A.id (withFriend B.id)).2
        B.id (withFriend A.id)).2 B.id = some (withFriend A.id B) := by
    rw [findUser_updateUserById _ B.id (withFriend A.id) (fun u => rfl) B.id, if_pos rfl, h1]; rfl
  have rkey := removeFriend_eq_found (b := B.id) hA
  have rfA : findUser (updateUserById (updateUserById s A.id (withoutFriend B.id)).2
        B.id (withoutFriend A.id)).2 A.id = some (withoutFriend B.id A) := by
    rw [findUser_updateUserById _ B.id (withoutFriend A.id) (fun u => rfl) A.id, if_neg hne,
      findUser_updateUserById s A.id (withoutFriend B.id) (fun u => rfl) A.id, if_pos rfl, hA]; rfl
  have rfB0 : findUser (updateUserById s A.id (withoutFriend B.id)).2 B.id
      = some B := by
    rw [findUser_updateUserById s A.id (withoutFriend B.id) (fun u => rfl) B.id,
      if_neg (Ne.symm hne), hB]
  have rfB : findUser (updateUserById (updateUserById s A.id (withoutFriend B.id)).2
        B.id (withoutFriend A.id)).2 B.id = some (withoutFriend A.id B) := by
    rw [findUser_updateUserById _ B.id (withoutFriend A.id) (fun u => rfl) B.id, if_pos rfl, rfB0]; rfl
  refine ⟨by rw [key], ?_, ?_, by rw [rkey], ?_, ?_⟩
  · simp only [key, hasFriend]
    rw [hfA]
    simp [withFriend, mem_addToSet]
  · simp only [key, hasFriend]
    rw [hfB]
    simp [withFriend, mem_addToSet]
  · simp only [rkey, hasFriend]
    rw [rfA]
    simp [withoutFriend]
  · simp only [rkey, hasFriend]
    rw [rfB]
    simp [withoutFriend]

/-- Witness for C1, at the two-user store. -/
theorem friend_symmetry_witness :
    (addFriend twoUserStore 0 1).1 = .ok (withFriend 1 alice) ∧
    hasFriend (addFriend twoUserStore 0 1).2 0 1 = true ∧
    hasFriend (addFriend twoUserStore 0 1).2 1 0 = true ∧
    (removeFriend twoUserStore 0 1).1 = .ok (withoutFriend 1 alice) ∧
    hasFriend (removeFriend twoUserStore 0 1).2 0 1 = false ∧
    hasFriend (removeFriend twoUserStore 0 1).2 1 0 = false :=
  friend_symmetry twoUserStore alice bob rfl rfl (by decide)

/-- C2 counterexample: with only alice (id 0) present, AddFriend(0, 1)
fails with NotFound, yet alice's friends set — empty before the call — now
contains 1: the first write is not rolled back. -/
theorem addFriend_partial_write_cex :
    (addFriend oneUserStore 0 1).1 = .notFound "Friend not found." ∧
    hasFriend oneUserStore 0 1 = false ∧
    hasFriend (addFriend oneUserStore 0 1).2 0 1 = true := by decide

/-- C2 (amended): if userId does not resolve, AddFriend fails with NotFound
and the store is unchanged; if userId resolves but friendId does not, it
fails with NotFound and no second write is attempted, but the first write
persists: friendId is now in userId's friends set. -/
theorem addFriend_notFound_firstWrite (s : Store) (uid fid : Nat) :
    (findUser s uid = none →
      addFriend s uid fid = (.notFound "User not found.", s)) ∧
    (∀ u, findUser s uid = some u → findUser s fid = none →
      (addFriend s uid fid).1 = .notFound "Friend not found." ∧
      (addFriend s uid fid).2 = (updateUserById s uid (withFriend fid)).2 ∧
      hasFriend (addFriend s uid fid).2 uid fid = true) := by
  constructor
  · exact fun h => addFriend_eq_noUser h
  · intro u hu hf
    have hne : fid ≠ uid := by
      intro e; rw [e, hu] at hf; exact Option.noConfusion hf
    have h1 : findUser (updateUserById s uid (withFriend fid)).2 fid = none := by
      rw [findUser_updateUserById s uid (withFriend fid) (fun v => rfl) fid,
        if_neg hne, hf]
    have key := addFriend_eq_noFriend hu h1
    have h2 : findUser (updateUserById s uid (withFriend fid)).2 uid
        = some (withFriend fid u) := by
      rw [findUser_updateUserById s uid (withFriend fid) (fun v => rfl) uid,
        if_pos rfl, hu]; rfl
    refine ⟨by rw [key], by rw [key], ?_⟩
    simp only [key, hasFriend]
    rw [h2]
    simp [withFriend, mem_addToSet]

/-- Witness for the amended C2, at the empty and the one-user store. -/
theorem addFriend_notFound_firstWrite_witness :
    addFriend (⟨[], [], 0⟩ : Store) 0 1 = (.notFound "User not found.", ⟨[], [], 0⟩) ∧
    (addFriend oneUserStore 0 1).1 = .notFound "Friend not found." ∧
    (addFriend oneUserStore 0 1).2 = (updateUserById oneUserStore 0 (withFriend 1)).2 ∧
    hasFriend (addFriend oneUserStore 0 1).2 0 1 = true := by
  refine ⟨(addFriend_notFound_firstWrite ⟨[], [], 0⟩ 0 1).1 rfl, ?_, ?_, ?_⟩
  · exact ((addFriend_notFound_firstWrite oneUserStore 0 1).2 alice rfl rfl).1
  · exact ((addFriend_notFound_firstWrite oneUserStore 0 1).2 alice rfl rfl).2.1
  · exact ((addFriend_notFound_firstWrite oneUserStore 0 1).2 alice rfl rfl).2.2

/-- C4: deleting user U succeeds and cascades: a Get on the identifier of
any stored thought whose username equals U's answers 404 afterwards. -/
theorem deleteUser_cascade (s : Store) (uid : Nat) (u : User)
    (hu : findUser s uid = some u)
    (htids : (s.thoughts.map Thought.id).Nodup)
    (t : Thought) (ht : t ∈ s.thoughts) (hname : t.username = u.username) :
    (deleteUser s uid).1 = .ok "User deleted" ∧
    getThought (deleteUser s uid).2 t.id = .notFound "Thought not found" := by
  have key : deleteUser s uid =
      (.ok "User deleted",
       { users := s.users.filter (fun v => v.id ≠ uid),
         thoughts := s.thoughts.filter (fun x => x.username ≠ u.username),
         nextId := s.nextId }) := by
    unfold deleteUser; rw [hu]
  have hfind : (s.thoughts.filter (fun x => x.username ≠ u.username)).find?
      (fun x => x.id = t.id) = none := by
    rw [List.find?_eq_none]
    intro a ha hdec
    have haid : a.id = t.id := by simpa using hdec
    have hmem : a ∈ s.thoughts := (List.mem_filter.1 ha).1
    have hane : a.username ≠ u.username := by
      simpa using (List.mem_filter.1 ha).2
    exact hane (by rw [List.inj_on_of_nodup_map htids hmem ht haid, hname])
  refine ⟨by rw [key], ?_⟩
  simp only [key, getThought, findThought]
  rw [hfind]

/-- Witness for C4: deleting alice removes her thought (id 2). -/
theorem deleteUser_cascade_witness :
    (deleteUser thoughtStore 0).1 = .ok "User deleted" ∧
    getThought (deleteUser thoughtStore 0).2 2 = .notFound "Thought not found" :=
  deleteUser_cascade thoughtStore 0 ⟨0, "alice", "a@b.com", [2], []⟩ rfl
    (by decide) ⟨2, "hi", "alice", 5, []⟩ (by decide) rfl

/-- C8: AddFriend is idempotent on the store: a second identical call
leaves the store exactly as the first call left it, in every case — both
users present, only the user present, or neither. -/
theorem addFriend_idempotent (s : Store) (a b : Nat) :
    (addFriend (addFriend s a b).2 a b).2 = (addFriend s a b).2 := by
  cases hA : findUser s a with
  | none =>
    simp only [addFriend_eq_noUser hA]
  | some A =>
    have hA1 : findUser (updateUserById s a (withFriend b)).2 a
        = some (withFriend b A) := by
      rw [findUser_updateUserById s a (withFriend b) (fun v => rfl) a,
        if_pos rfl, hA]; rfl
    have hfixA : withFriend b (withFriend b A) = withFriend b A :=
      withFriend_eq_self (self_mem_addToSet _ _)
    cases hB : findUser (updateUserById s a (withFriend b)).2 b with
    | none =>
      have key := addFriend_eq_noFriend hA hB
      have e1 : updateUserById (updateUserById s a (withFriend b)).2 a (withFriend b)
          = (some (withFriend b A), (updateUserById s a (withFriend b)).2) :=
        updateUserById_of_fix _ hA1 hfixA
      have hS : (updateUserById (updateUserById s a (withFriend b)).2 a (withFriend b)).2
          = (updateUserById s a (withFriend b)).2 := by rw [e1]
      have key2 := addFriend_eq_noFriend hA1 (by rw [hS]; exact hB)
      simp only [key, key2, hS]
    | some B1 =>
      have key := addFriend_eq_ok hA hB
      by_cases hab : a = b
      · subst hab
        have e2 : updateUserById (updateUserById s a (withFriend a)).2 a (withFriend a)
            = (some (withFriend a A), (updateUserById s a (withFriend a)).2) :=
          updateUserById_of_fix _ hA1 hfixA
        have hstate : (addFriend s a a).2 = (updateUserById s a (withFriend a)).2 := by
          rw [key, e2]
        have hB2 : findUser (updateUserById (updateUserById s a (withFriend a)).2 a (withFriend a)).2 a
            = some (withFriend a A) := by rw [e2]; exact hA1
        have key2 := addFriend_eq_ok hA1 hB2
        have e3 : (updateUserById (updateUserById (updateUserById s a (withFriend a)).2 a (withFriend a)).2 a (withFriend a)).2
            = (updateUserById s a (withFriend a)).2 := by
          rw [updateUserById_of_fix (withFriend a) hB2 hfixA, e2]
        rw [hstate, key2]
        exact e3
      · have hA2 : findUser (updateUserById (updateUserById s a (withFriend b)).2 b (withFriend a)).2 a
            = some (withFriend b A) := by
          rw [findUser_updateUserById _ b (withFriend a) (fun v => rfl) a,
            if_neg hab, hA1]
        have hB2 : findUser (updateUserById (updateUserById s a (withFriend b)).2 b (withFriend a)).2 b
            = some (withFriend a B1) := by
          rw [findUser_updateUserById _ b (withFriend a) (fun v => rfl) b,
            if_pos rfl, hB]; rfl
        have e1 : updateUserById (updateUserById (updateUserById s a (withFriend b)).2 b (withFriend a)).2 a (withFriend b)
            = (some (withFriend b A), (updateUserById (updateUserById s a (withFriend b)).2 b (withFriend a)).2) :=
          updateUserById_of_fix _ hA2 hfixA
        have hS : (updateUserById (updateUserById (updateUserById s a (withFriend b)).2 b (withFriend a)).2 a (withFriend b)).2
            = (updateUserById (updateUserById s a (withFriend b)).2 b (withFriend a)).2 := by
          rw [e1]
        have hfixB : withFriend a (withFriend a B1) = withFriend a B1 :=
          withFriend_eq_self (self_mem_addToSet _ _)
        have hB3 : findUser (updateUserById (updateUserById (updateUserById s a (withFriend b)).2 b (withFriend a)).2 a (withFriend b)).2 b
            = some (withFriend a B1) := by rw [hS]; exact hB2
        have e2 := updateUserById_of_fix (withFriend a) hB3 hfixB
        have key2 := addFriend_eq_ok hA2 hB3
        rw [key, key2, e2, e1]

/-- C5: creating a thought authored by an existing user U succeeds, assigns
the fresh store identifier, and appends that identifier to U's thoughts
list, where it then occurs exactly once. -/
theorem createThought_appends_once (s : Store) (p : ThoughtPayload) (U : User)
    (hU : U ∈ s.users) (hname : U.username = p.username)
    (hids : (s.users.map User.id).Nodup)
    (hnames : (s.users.map User.username).Nodup)
    (hbound : ∀ v ∈ s.users, ∀ tid ∈ v.thoughts, tid < s.nextId)
    (hlen1 : 1 ≤ p.thoughtText.length) (hlen2 : p.thoughtText.length ≤ 280)
    (hun : p.username ≠ "") (now : Nat) :
    (createThought s p now).1 = .ok ⟨s.nextId, p.thoughtText, p.username, now, []⟩ ∧
    ∃ u2, findUser (createThought s p now).2 U.id = some u2 ∧
      u2.thoughts.count s.nextId = 1 := by
  have key : createThought s p now =
      (.ok ⟨s.nextId, p.thoughtText, p.username, now, []⟩,
        updateUserByUsername
          { s with
            thoughts := s.thoughts ++ [⟨s.nextId, p.thoughtText, p.username, now, []⟩],
            nextId := s.nextId + 1 }
          p.username
          (fun u => { u with thoughts := u.thoughts ++ [s.nextId] })) := by
    unfold createThought
    rw [if_neg (by simp; omega), if_neg (by simpa using hun)]
  have hfind : findUser (createThought s p now).2 U.id
      = some { U with thoughts := U.thoughts ++ [s.nextId] } := by
    simp only [key, updateUserByUsername, findUser]
    rw [← hname]
    exact find?_updateFirst_username_of_mem
      (fun u => { u with thoughts := u.thoughts ++ [s.nextId] })
      (fun u => rfl) hU hids hnames
  refine ⟨by rw [key], { U with thoughts := U.thoughts ++ [s.nextId] }, hfind, ?_⟩
  have h0 : U.thoughts.count s.nextId = 0 := by
    rw [List.count_eq_zero]
    intro hmem
    exact absurd (hbound U hU s.nextId hmem) (lt_irrefl _)
  show (U.thoughts ++ [s.nextId]).count s.nextId = 1
  simp [List.count_append, h0]

/-- Witness for C5: alice authors a thought in the two-user store. -/
theorem createThought_appends_once_witness :
    (createThought twoUserStore ⟨"hi", "alice"⟩ 9).1
      = .ok ⟨2, "hi", "alice", 9, []⟩ ∧
    ∃ u2, findUser (createThought twoUserStore ⟨"hi", "alice"⟩ 9).2 0 = some u2 ∧
      u2.thoughts.count 2 = 1 :=
  createThought_appends_once twoUserStore ⟨"hi", "alice"⟩ alice (by decide) rfl
    (by decide) (by decide) (by decide) (by decide) (by decide) (by decide) 9

/-- C6: successful user creation preserves pairwise distinctness of
usernames and of emails, and a creation whose username or email is already
taken answers 400 and leaves the store untouched. -/
theorem createUser_unique (s : Store) (p : UserPayload) :
    (distinctCreds s → distinctCreds (createUser s p).2) ∧
    ((∃ v ∈ s.users, v.username = trimString p.username) ∨
        (∃ v ∈ s.users, v.email = p.email) →
      (createUser s p).1 = .badRequest ∧ (createUser s p).2 = s) := by
  refine ⟨distinctCreds_createUser s p, ?_⟩
  intro hdup
  simp only [createUser]
  split
  next => exact ⟨rfl, rfl⟩
  next hc1 =>
    split
    next => exact ⟨rfl, rfl⟩
    next hc2 =>
      split
      next => exact ⟨rfl, rfl⟩
      next hc3 =>
        split
        next => exact ⟨rfl, rfl⟩
        next hc4 =>
          exfalso
          rcases hdup with ⟨v, hv, he⟩ | ⟨v, hv, he⟩
          · exact hc3 (List.any_eq_true.2 ⟨v, hv, by simp [he]⟩)
          · exact hc4 (List.any_eq_true.2 ⟨v, hv, by simp [he]⟩)

/-- Witness for C6: a fresh user keeps credentials distinct; re-creating
alice's username is rejected without a write. -/
theorem createUser_unique_witness :
    distinctCreds (createUser twoUserStore ⟨"carol", "c@d.com", [], []⟩).2 ∧
    (createUser twoUserStore ⟨"alice", "x@y.com", [], []⟩).1 = .badRequest ∧
    (createUser twoUserStore ⟨"alice", "x@y.com", [], []⟩).2 = twoUserStore := by
  refine ⟨(createUser_unique twoUserStore ⟨"carol", "c@d.com", [], []⟩).1 (by decide), ?_, ?_⟩
  · exact ((createUser_unique twoUserStore ⟨"alice", "x@y.com", [], []⟩).2
      (Or.inl ⟨alice, by decide, by decide⟩)).1
  · exact ((createUser_unique twoUserStore ⟨"alice", "x@y.com", [], []⟩).2
      (Or.inl ⟨alice, by decide, by decide⟩)).2

/-- C3 counterexample: a store satisfying the friends invariant (alice and
bob mutual friends) loses it after DeleteUser(alice): bob's friends set
still names the now-deleted identifier 0, so not every operation preserves
the invariant. -/
theorem friendIntegrity_cex :
    FriendIntegrity mutualStore ∧
    (deleteUser mutualStore 0).1 = .ok "User deleted" ∧
    ¬ FriendIntegrity (deleteUser mutualStore 0).2 := by decide

/-- C3 (amended): over a store with distinct user ids, the friends
invariant (every friends entry names an existing user who reciprocates) is
preserved by AddFriend when both identifiers resolve, by RemoveFriend, by
every Thought operation, and by user Create and Update when the request
body supplies no friends array — but not by user Delete, nor by an
AddFriend whose friendId does not resolve, nor by a user Create or Update
whose body injects a friends array directly. -/
theorem friendIntegrity_preservation (s : Store)
    (hids : (s.users.map User.id).Nodup) (hI : FriendIntegrity s) :
    (∀ a b, (findUser s a).isSome = true → (findUser s b).isSome = true →
      FriendIntegrity (addFriend s a b).2) ∧
    (∀ a b, FriendIntegrity (removeFriend s a b).2) ∧
    (∀ p, p.friends = [] → FriendIntegrity (createUser s p).2) ∧
    (∀ i p, p.friends = none → FriendIntegrity (updateUser s i p).2) ∧
    (∀ p now, FriendIntegrity (createThought s p now).2) ∧
    (∀ i p, FriendIntegrity (updateThought s i p).2) ∧
    (∀ i, FriendIntegrity (deleteThought s i).2) :=
  ⟨fun a b ha hb => friendOk_addFriend s hids hI a b ha hb,
   fun a b => friendOk_removeFriend s hids hI a b,
   fun p hp => friendOk_createUser s hI p hp,
   fun i p hp => friendOk_updateUser s hI i p hp,
   fun p now => friendOk_createThought s hI p now,
   fun i p => friendOk_updateThought s hI i p,
   fun i => friendOk_deleteThought s hI i⟩

/-- Witness for the amended C3, at the mutual-friends store. -/
theorem friendIntegrity_preservation_witness :
    FriendIntegrity (addFriend mutualStore 0 1).2 ∧
    FriendIntegrity (removeFriend mutualStore 0 1).2 ∧
    FriendIntegrity (createUser mutualStore ⟨"carol", "c@d.com", [], []⟩).2 := by
  obtain ⟨h1, h2, h3, _⟩ :=
    friendIntegrity_preservation mutualStore (by decide) (by decide)
  exact ⟨h1 0 1 (by decide) (by decide), h2 0 1,
    h3 ⟨"carol", "c@d.com", [], []⟩ rfl⟩

end Claims

end NoSQL
